import Mathlib

set_option maxHeartbeats 1000000

/- Verification of the DoctorAI backend core (src/backend/app.py): a shallow
embedding of the request-enrichment, urgency-classification, session-memory and
response-cache pipeline, followed by theorems about it.

Modelling conventions:
* Python `str` is modelled as Lean `String` (a list of code points); ASCII-level
  models are used for `str.lower`, `str.upper`, `str.strip` and the regex word
  character class, which is all the embedded code paths exercise.
* `time.time()` values are rationals, passed in explicitly.
* JSON store files are `FileState` values: missing, unparseable, or parsed
  content; `load_json` degrades the first two to the empty document exactly as
  the `try/except` in the source does.
* The external text-generation backend is an explicit input: an inductive
  describing the outcome of the single HTTP interaction a call performs.
* `hashlib.sha256(...).hexdigest()` and `fuzz.ratio` are external library
  functions; they are taken as function parameters (`digest`, `ratioFn`) of the
  embedded operations.
-/

namespace DoctorAI

/-! ### Python string primitives -/

/-- Python whitespace for `str.strip` (ASCII part). -/
def pyWs (c : Char) : Bool :=
  c == ' ' || c == '\t' || c == '\n' || c == '\r' || c == '\x0b' || c == '\x0c'

/-- ASCII model of a character under Python `str.lower`. -/
def pyLowerChar (c : Char) : Char :=
  if 65 ≤ c.toNat ∧ c.toNat ≤ 90 then Char.ofNat (c.toNat + 32) else c

/-- ASCII model of a character under Python `str.upper`. -/
def pyUpperChar (c : Char) : Char :=
  if 97 ≤ c.toNat ∧ c.toNat ≤ 122 then Char.ofNat (c.toNat - 32) else c

/-- Model of Python `s.lower()`. -/
def pyLower (s : String) : String := ⟨s.data.map pyLowerChar⟩

/-- Model of Python `s.upper()`. -/
def pyUpper (s : String) : String := ⟨s.data.map pyUpperChar⟩

/-- Boolean test: the first list is a prefix of the second. -/
def prefB : List Char → List Char → Bool
  | [], _ => true
  | _ :: _, [] => false
  | a :: as, b :: bs => (a == b) && prefB as bs

/-- Boolean substring test on character lists. -/
def containsB (needle : List Char) : List Char → Bool
  | [] => needle.isEmpty
  | c :: t => prefB needle (c :: t) || containsB needle t

/-- Model of Python `needle in hay` for strings. -/
def pyContains (hay needle : String) : Bool := containsB needle.data hay.data

/-- Model of Python `s.strip()` on a character list. -/
def stripL (l : List Char) : List Char :=
  ((l.dropWhile pyWs).reverse.dropWhile pyWs).reverse

/-- Model of Python `s.strip()`. -/
def pyStrip (s : String) : String := ⟨stripL s.data⟩

/-- Boolean test: the first list is a suffix of the second. -/
def suffB (a b : List Char) : Bool := prefB a.reverse b.reverse

/-- Model of Python `s.endswith(t)`. -/
def pyEndsWith (s t : String) : Bool := suffB t.data s.data

/-! ### Python dict / list primitives -/

/-- Python `d.get(k)` on an insertion-ordered dictionary. -/
def dictGet {α : Type} (k : String) : List (String × α) → Option α
  | [] => none
  | (k', v) :: rest => if k' == k then some v else dictGet k rest

/-- Python `d[k] = v` on an insertion-ordered dictionary. -/
def dictSet {α : Type} (k : String) (v : α) : List (String × α) → List (String × α)
  | [] => [(k, v)]
  | (k', v') :: rest => if k' == k then (k, v) :: rest else (k', v') :: dictSet k v rest

/-- Python `l[-n:]`: the last `n` elements (all of `l` when it is shorter). -/
def lastN {α : Type} (n : Nat) (l : List α) : List α := l.drop (l.length - n)

/-- Concatenation of a list of strings, in order. -/
def concatStrs : List String → String
  | [] => ""
  | s :: rest => s ++ concatStrs rest

/-- Slices `l[0:200], l[200:400], ...` as produced by
`for i in range(0, len(l), 200)`. -/
def chunkL : List Char → List (List Char)
  | [] => []
  | c :: cs => (c :: cs).take 200 :: chunkL ((c :: cs).drop 200)
  termination_by l => l.length
  decreasing_by simp only [List.length_drop, List.length_cons]; omega

/-- 200-character slices of a string (cache-hit streaming replay). -/
def chunk200 (s : String) : List String := (chunkL s.data).map (fun l => ⟨l⟩)

/-! ### Fixed texts -/

/-- ETHICS_DISCLAIMER from the source, byte for byte (note the trailing spaces). -/
def ETHICS_DISCLAIMER : String :=
  "\n⚠️ IMPORTANT ETHICS NOTICE: \nI am DoctorAI, an AI tool for educational guidance based on AHA/WHO data. \nI am NOT a doctor and cannot diagnose, treat, or provide medical advice. \nAlways consult a certified cardiologist for your health. \nYour data is anonymous and not stored without consent. \nIf in doubt, seek immediate professional help.\n"

/-! ### Store files -/

/-- State of one JSON store file on disk. -/
inductive FileState (α : Type) where
  | missing
  | corrupt
  | valid (data : α)

/-- Models `load_json`: a missing file or a parse error yields the empty
document, otherwise the parsed content. -/
def load_json {α : Type} (empty : α) : FileState α → α
  | .missing => empty
  | .corrupt => empty
  | .valid d => d

/-! ### Session memory (local_db/session_memory.json) -/

/-- One entry of `previous_questions`. -/
structure QEntry where
  q : String
  t : String
deriving DecidableEq

/-- One entry of `audit_logs`. -/
structure LogEntry where
  timestamp : String
  anon_query : String
  response_level : Nat
deriving DecidableEq

/-- The session-memory document. `extra` models any further keys the JSON
document may hold (as raw text), which the code preserves via dict spreading. -/
structure SessionDoc where
  user_consent : Bool
  previous_questions : List QEntry
  audit_logs : List LogEntry
  extra : List (String × String)
deriving DecidableEq

/-- Models `remember_question`: a no-op without consent, otherwise appends the
question with its UTC timestamp and keeps the last 5 entries, preserving every
other field of the document. -/
def remember_question (data : SessionDoc) (question : String) (ts : String) : SessionDoc :=
  if data.user_consent then
    { data with previous_questions := lastN 5 (data.previous_questions ++ [⟨question, ts⟩]) }
  else data

/-- Models `recall_user_context`. -/
def recall_user_context (data : SessionDoc) : String :=
  if data.user_consent then
    match data.previous_questions.getLast? with
    | some e => "Earlier you asked: \x27" ++ e.q ++ "\x27"
    | none => ""
  else ""

/-! ### Audit logging -/

/-- Regex word character (ASCII part of Python's word class). -/
def isWordChar (c : Char) : Bool := c.isAlphanum || c == '_'

/-- A completed run of word characters: redacted when it has 5 or more
characters, kept verbatim otherwise. -/
def redactRun (run : List Char) : List Char :=
  if 5 ≤ run.length then "[REDACTED]".data else run

/-- Scans the message accumulating the current word-character run (reversed in
`cur`) and flushes it through `redactRun` at each non-word character and at the
end. -/
def redactAux (cur : List Char) : List Char → List Char
  | [] => redactRun cur.reverse
  | c :: cs =>
    if isWordChar c then redactAux (c :: cur) cs
    else redactRun cur.reverse ++ c :: redactAux [] cs

/-- Replaces every maximal run of 5 or more word characters by the redaction
marker; this is the effect of the word-bounded greedy substitution in the source. -/
def redactL (l : List Char) : List Char := redactAux [] l

/-- The anonymisation substitution applied to a message before logging. -/
def anonymize (message : String) : String := ⟨redactL message.data⟩

/-- Models `log_interaction`: appends a redacted record and keeps the last 100
log entries, preserving every other field. The `response` argument is accepted
and ignored exactly as in the source. -/
def log_interaction (data : SessionDoc) (message : String) (response : String)
    (ts : String) (level : Nat) : SessionDoc :=
  let _ := response
  { data with audit_logs := lastN 100 (data.audit_logs ++ [⟨ts, anonymize message, level⟩]) }

/-! ### Response cache (local_db/ai_cache.json) -/

/-- One cache entry: response text and store time. -/
structure CacheEntry where
  v : String
  t : ℚ
deriving DecidableEq

abbrev Cache := List (String × CacheEntry)

/-- Models `cache_get`: a pure dictionary read. -/
def cache_get (cache : Cache) (key : String) : Option CacheEntry :=
  dictGet key cache

/-- Models `cache_set`: unconditional overwrite with the current time. -/
def cache_set (cache : Cache) (key : String) (value : String) (now : ℚ) : Cache :=
  dictSet key ⟨value, now⟩ cache

/-! ### Local knowledge matcher -/

/-- Answer plus fuzzy confidence, as returned by the local matchers. -/
structure LocalAnswer where
  answer : String
  confidence : ℚ
deriving DecidableEq

/-- One clinic record; `phone` is optional and defaults to N/A on display. -/
structure Clinic where
  name : String
  phone : Option String

/-- Models `match_symptoms`: every symptom key contained in the lowercased
question contributes one line; no match yields nothing. -/
def match_symptoms (store : FileState (List (String × List String)))
    (question : String) : Option String :=
  let mapping := load_json [] store
  let q_lower := pyLower question
  let found := mapping.filter (fun kv => pyContains q_lower kv.1)
  if found ≠ [] then
    some (String.intercalate "; " (found.map (fun kv =>
      "\x27" ++ kv.1 ++ "\x27: possible -> " ++ String.intercalate ", " kv.2)))
  else none

/-- The FAQ scan of `check_local_db`: keeps the best score seen so far, the
update condition being a strict improvement (`score > best_score`, starting
from 0), exactly as the loop in the source. -/
def faqLoop (ratioFn : String → String → Nat) (q : String) :
    List (String × String) → Option (String × Nat) × Nat → Option (String × Nat) × Nat
  | [], st => st
  | (key, answer) :: rest, (best, best_score) =>
    let score := ratioFn key q
    if best_score < score then faqLoop ratioFn q rest (some (answer, score), score)
    else faqLoop ratioFn q rest (best, best_score)

/-- The tips / clinics fallback of `check_local_db` (reached when the FAQ path
produces nothing). -/
def tipsClinics (tips : List (String × String)) (clinics : List Clinic)
    (q_lower : String) : Option LocalAnswer :=
  match tips.find? (fun kv => pyContains q_lower kv.1) with
  | some kv => some ⟨kv.2, 4/5⟩
  | none =>
    if pyContains q_lower "clinic" || pyContains q_lower "hospital" then
      some ⟨"Here are some local cardiology clinics: " ++
        String.intercalate ", "
          (clinics.map (fun c => c.name ++ " (" ++ c.phone.getD "N/A" ++ ")")), 7/10⟩
    else none

/-- Models `check_local_db`. `ratioFn` stands for the external `fuzz.ratio`
(an integer similarity score). The confidence `sc/100` already has at most two
decimals, so the source's `round(sc/100, 2)` is the identity here. -/
def check_local_db (ratioFn : String → String → Nat)
    (faqStore : FileState (List (String × String)))
    (tipsStore : FileState (List (String × String)))
    (clinicsStore : FileState (List Clinic)) (question : String) : Option LocalAnswer :=
  let faq := load_json [] faqStore
  let tips := load_json [] tipsStore
  let clinics := load_json [] clinicsStore
  let q_lower := pyLower question
  let bs := faqLoop ratioFn q_lower faq (none, 0)
  match bs.1 with
  | some (ans, sc) =>
    if 60 < bs.2 then some ⟨ans, (sc : ℚ) / 100⟩
    else tipsClinics tips clinics q_lower
  | none => tipsClinics tips clinics q_lower

/-- Models `check_who_data`: first key contained in the lowercased question
wins, with fixed confidence 0.85. -/
def check_who_data (store : FileState (List (String × String)))
    (question : String) : Option LocalAnswer :=
  let who_data := load_json [] store
  let q_lower := pyLower question
  match who_data.find? (fun kv => pyContains q_lower kv.1) with
  | some kv => some ⟨kv.2, 17/20⟩
  | none => none

/-! ### Prompt builder -/

/-- Models `build_prompt`, reproducing the f-string template exactly. The
session document stands in for the session-memory file read by
`recall_user_context`. Note that Python truthiness makes an empty urgency
string or an empty list behave like an absent one. -/
def build_prompt (session : SessionDoc) (message : String)
    (additional_info : Option (List String)) (urgency_info : Option String) : String :=
  let context := recall_user_context session
  let base :=
    "\nYou are DoctorAI, a virtual cardiologist. Follow WHO 2025 AI Ethics: Be transparent, empathetic, equitable. Use simple English. NEVER diagnose—say \x27possible\x27 or \x27suggest consulting\x27.\nIf emergent, prioritize safety over advice.\nEnd EVERY response with the following disclaimer: "
      ++ ETHICS_DISCLAIMER ++ "\n\n" ++ context ++ "\nUser: " ++ message ++ "\n"
  let withUrgency :=
    match urgency_info with
    | some u =>
      if u ≠ "" then
        base ++ "\nURGENCY ALERT: " ++ u ++
          "\nInclude this prominently at the beginning of your response to ensure user safety."
      else base
    | none => base
  match additional_info with
  | some infos =>
    if infos ≠ [] then
      withUrgency ++ "\nRELEVANT DATA FROM LOCAL DB/WHO/SYMPTOM MATCHES:\n" ++
        String.intercalate "\n" infos ++
        "\nIncorporate this information accurately into your response to provide comprehensive guidance."
    else withUrgency
  | none => withUrgency

/-! ### Urgency classifier -/

/-- Outcome of the classification HTTP call: an exception (connection failure
or timeout), a non-success status, or a parsed body (the `response` field, with
empty string as its default). -/
inductive ClassifyBackend where
  | exn
  | httpError (status : Nat)
  | ok (body : String)

/-- Result record of `classify_urgency`. -/
structure UrgencyResult where
  level : Nat
  action : String
  confidence : ℚ
  reason : String
deriving DecidableEq

/-- The level-3 default returned on any failure or unrecognised reply. -/
def urgencyDefault : UrgencyResult :=
  ⟨3, "General advice follows.", 1/2, ""⟩

/-- Models `classify_urgency`. The `message` only shapes the prompt sent out;
the decision depends on the backend reply alone, parsed by substring search on
the stripped, uppercased text. -/
def classify_urgency (message : String) (backend : ClassifyBackend) : UrgencyResult :=
  let _ := message
  match backend with
  | .ok body =>
    let result := pyStrip body
    if pyContains (pyUpper result) "LEVEL 1" then
      ⟨1, "🚨 EMERGENCY! Call 108 or go to nearest hospital IMMEDIATELY. Do not wait.", 1, result⟩
    else if pyContains (pyUpper result) "LEVEL 2" then
      ⟨2, "⚠️ URGENT: Contact a doctor or clinic within 24 hours.", 4/5, result⟩
    else urgencyDefault
  | _ => urgencyDefault

/-! ### Generation client (ask_ai_stream) -/

/-- Error text for a non-success HTTP status. -/
def ollamaErrorText (status : Nat) : String :=
  "Ollama error: HTTP " ++ toString status ++ "\n\n" ++ ETHICS_DISCLAIMER

/-- Error text for a transport failure (`str(e)` of the exception). -/
def connectErrorText (emsg : String) : String :=
  "Error connecting to Ollama: " ++ emsg ++ "\n\n" ++ ETHICS_DISCLAIMER

/-- One line of the backend's line-delimited stream: a falsy (empty) line, a
line whose JSON parses — `chunk` being the coalesced
`response or output or text or ""` field and `done` the completion flag — or a
line that fails to parse, kept as raw text. -/
inductive StreamLine where
  | blank
  | parsed (chunk : String) (done : Bool)
  | unparsed (raw : String)

/-- Outcome of the generation HTTP call in non-streaming mode. -/
inductive NoStreamBackend where
  | exn (emsg : String)
  | httpError (status : Nat)
  | ok (body : String)

/-- Outcome of the generation HTTP call in streaming mode. -/
inductive StreamBackend where
  | exn (emsg : String)
  | httpError (status : Nat)
  | ok (lines : List StreamLine)

/-- The streaming consumption loop: returns the forwarded chunk payloads in
order together with the accumulated `full_text`. A parsed line with the
completion flag stops the loop before its own chunk is forwarded; empty chunks
and whitespace-only unparsed lines are skipped; unparsed lines with content are
forwarded verbatim. -/
def iterStream : List StreamLine → List String × String
  | [] => ([], "")
  | .blank :: rest => iterStream rest
  | .parsed chunk done :: rest =>
    if done then ([], "")
    else if chunk = "" then iterStream rest
    else
      let r := iterStream rest
      (chunk :: r.1, chunk ++ r.2)
  | .unparsed raw :: rest =>
    if pyStrip raw = "" then iterStream rest
    else
      let r := iterStream rest
      (raw :: r.1, raw ++ r.2)

/-- Result of a non-streaming call: the returned text, the cache state after
the call, and whether the backend was contacted. -/
structure NoStreamResult where
  text : String
  cache : Cache
  contacted : Bool
deriving DecidableEq

/-- Result of a streaming call: the chunk payloads emitted (the values carried
by the yielded `reply` JSON lines), the cache state after the call, and whether
the backend was contacted. -/
structure StreamResult where
  chunks : List String
  cache : Cache
  contacted : Bool
deriving DecidableEq

/-- The cache probe at the top of `ask_ai_stream`: a stored value is usable
exactly when the entry exists and is younger than 3600 seconds. -/
def freshHit (cache : Cache) (key : String) (now : ℚ) : Option String :=
  match cache_get cache key with
  | some entry => if now - entry.t < 3600 then some entry.v else none
  | none => none

/-- Models `ask_ai_stream` with `stream=False`: on a fresh cache hit the stored
text is returned unchanged; otherwise the backend is contacted and the reply
(or error text) is produced, with the successful reply and the HTTP-status
error text both written to the cache. -/
def ask_ai_stream_nostream (digest : String → String) (session : SessionDoc)
    (cache : Cache) (now : ℚ) (backend : NoStreamBackend) (message : String)
    (additional_info : Option (List String)) (urgency_info : Option String) :
    NoStreamResult :=
  let full_prompt := build_prompt session message additional_info urgency_info
  let cache_key := digest full_prompt
  match freshHit cache cache_key now with
  | some v => ⟨v, cache, false⟩
  | none =>
    match backend with
    | .exn emsg => ⟨connectErrorText emsg, cache, true⟩
    | .httpError status =>
      let text := ollamaErrorText status
      ⟨text, cache_set cache cache_key text now, true⟩
    | .ok body =>
      let text := body ++ "\n\n" ++ ETHICS_DISCLAIMER
      ⟨text, cache_set cache cache_key text now, true⟩

/-- Models `ask_ai_stream` with `stream=True` (the default): on a fresh cache
hit the stored text is replayed in 200-character chunks; otherwise the backend
stream is consumed by `iterStream` and the accumulated text, when non-empty, is
written to the cache. Error outcomes emit a single error chunk and write
nothing. -/
def ask_ai_stream (digest : String → String) (session : SessionDoc)
    (cache : Cache) (now : ℚ) (backend : StreamBackend) (message : String)
    (additional_info : Option (List String)) (urgency_info : Option String) :
    StreamResult :=
  let full_prompt := build_prompt session message additional_info urgency_info
  let cache_key := digest full_prompt
  match freshHit cache cache_key now with
  | some v => ⟨chunk200 v, cache, false⟩
  | none =>
    match backend with
    | .exn emsg => ⟨[connectErrorText emsg], cache, true⟩
    | .httpError status => ⟨[ollamaErrorText status], cache, true⟩
    | .ok lines =>
      let r := iterStream lines
      ⟨r.1, if r.2 = "" then cache else cache_set cache cache_key r.2 now, true⟩

/-- True when the list holds a parsed line whose completion flag is set. -/
def hasDoneLine : List StreamLine → Bool
  | [] => false
  | .blank :: rest => hasDoneLine rest
  | .parsed _ d :: rest => d || hasDoneLine rest
  | .unparsed _ :: rest => hasDoneLine rest

/-- Maximum fuzzy score over the FAQ keys (0 when there are none). -/
def maxScores (ratioFn : String → String → Nat) (q : String) :
    List (String × String) → Nat
  | [] => 0
  | (k, _) :: rest => max (ratioFn k q) (maxScores ratioFn q rest)

/-- Answer of the first FAQ key attaining the given score. -/
def firstWithScore (ratioFn : String → String → Nat) (q : String) (s : Nat) :
    List (String × String) → Option String
  | [] => none
  | (k, a) :: rest => if ratioFn k q = s then some a else firstWithScore ratioFn q s rest

/-! ## Utility lemmas -/

theorem dictGet_dictSet {α : Type} (k k' : String) (v : α) (c : List (String × α)) :
    dictGet k (dictSet k' v c) = if k' == k then some v else dictGet k c := by
  induction c with
  | nil => simp [dictGet, dictSet]
  | cons p rest ih =>
    obtain ⟨pk, pv⟩ := p
    by_cases h1 : pk = k'
    · subst h1
      by_cases h2 : pk = k
      · subst h2
        simp [dictGet, dictSet]
      · simp [dictGet, dictSet, h2]
    · by_cases h2 : pk = k
      · subst h2
        have h3 : (k' == pk) = false := by
          rw [beq_eq_false_iff_ne]
          exact fun he => h1 he.symm
        simp [dictGet, dictSet, h1, h3, ih]
      · simp [dictGet, dictSet, h1, h2, ih]

theorem prefB_iff (a b : List Char) : prefB a b = true ↔ ∃ t, b = a ++ t := by
  induction a generalizing b with
  | nil => simp [prefB]
  | cons x xs ih =>
    cases b with
    | nil => simp [prefB]
    | cons y ys =>
      simp only [prefB, Bool.and_eq_true, beq_iff_eq, ih, List.cons_append,
        List.cons.injEq]
      constructor
      · rintro ⟨rfl, t, rfl⟩; exact ⟨t, rfl, rfl⟩
      · rintro ⟨t, rfl, rfl⟩; exact ⟨rfl, t, rfl⟩

theorem containsB_iff (n h : List Char) :
    containsB n h = true ↔ ∃ s t, h = s ++ n ++ t := by
  induction h with
  | nil =>
    simp only [containsB, List.isEmpty_iff]
    constructor
    · rintro rfl; exact ⟨[], [], rfl⟩
    · rintro ⟨s, t, he⟩
      rcases List.append_eq_nil.mp (List.append_eq_nil.mp he.symm).1 with ⟨-, h2⟩
      exact h2
  | cons c t ih =>
    simp only [containsB, Bool.or_eq_true, prefB_iff, ih]
    constructor
    · rintro (⟨u, he⟩ | ⟨s, u, rfl⟩)
      · exact ⟨[], u, by simpa using he⟩
      · exact ⟨c :: s, u, rfl⟩
    · rintro ⟨s, u, he⟩
      cases s with
      | nil => exact Or.inl ⟨u, by simpa using he⟩
      | cons a s' =>
        rcases List.cons.injEq .. ▸ he with ⟨rfl, h2⟩
        exact Or.inr ⟨s', u, by simpa using h2⟩

theorem containsB_rev (n h : List Char) :
    containsB n.reverse h.reverse = containsB n h := by
  rw [Bool.eq_iff_iff, containsB_iff, containsB_iff]
  constructor
  · rintro ⟨s, t, he⟩
    refine ⟨t.reverse, s.reverse, ?_⟩
    have := congrArg List.reverse he
    simpa [List.reverse_append, List.append_assoc] using this
  · rintro ⟨s, t, rfl⟩
    exact ⟨t.reverse, s.reverse, by simp [List.reverse_append, List.append_assoc]⟩

theorem containsB_dropWhile (p : Char → Bool) (n0 : Char) (ntl h : List Char)
    (h0 : p n0 = false) :
    containsB (n0 :: ntl) (h.dropWhile p) = containsB (n0 :: ntl) h := by
  induction h with
  | nil => rfl
  | cons c t ih =>
    by_cases hc : p c = true
    · rw [List.dropWhile_cons_of_pos hc, ih]
      have hne : (n0 == c) = false := by
        rw [beq_eq_false_iff_ne]
        rintro rfl
        rw [h0] at hc
        exact Bool.false_ne_true hc
      simp [containsB, prefB, hne]
    · rw [List.dropWhile_cons_of_neg hc]

theorem containsB_stripL (n0 m0 : Char) (ntl mtl l : List Char)
    (hrev : (n0 :: ntl).reverse = m0 :: mtl)
    (h0 : pyWs n0 = false) (h1 : pyWs m0 = false) :
    containsB (n0 :: ntl) (stripL l) = containsB (n0 :: ntl) l := by
  unfold stripL
  have st1 : containsB (n0 :: ntl) (((l.dropWhile pyWs).reverse.dropWhile pyWs).reverse) =
      containsB (m0 :: mtl) ((l.dropWhile pyWs).reverse.dropWhile pyWs) := by
    rw [← hrev, ← List.reverse_reverse ((l.dropWhile pyWs).reverse.dropWhile pyWs),
      containsB_rev, List.reverse_reverse]
  rw [st1, containsB_dropWhile pyWs m0 mtl _ h1, ← hrev, containsB_rev,
    containsB_dropWhile pyWs n0 ntl l h0]

theorem stripL_map (f : Char → Char) (hf : ∀ c, pyWs (f c) = pyWs c) (l : List Char) :
    stripL (l.map f) = (stripL l).map f := by
  have hcomp : (pyWs ∘ f) = pyWs := funext hf
  unfold stripL
  rw [List.dropWhile_map, hcomp, ← List.map_reverse, List.dropWhile_map, hcomp,
    ← List.map_reverse]

theorem charBeq_false_of_toNat_ne (c d : Char) (h : c.toNat ≠ d.toNat) :
    (c == d) = false := by
  rw [beq_eq_false_iff_ne]
  rintro rfl
  exact h rfl

theorem pyWs_false_of_32_lt (c : Char) (h : 32 < c.toNat) : pyWs c = false := by
  have e1 : (' ' : Char).toNat = 32 := rfl
  have e2 : ('\t' : Char).toNat = 9 := rfl
  have e3 : ('\n' : Char).toNat = 10 := rfl
  have e4 : ('\r' : Char).toNat = 13 := rfl
  have e5 : ('\x0b' : Char).toNat = 11 := rfl
  have e6 : ('\x0c' : Char).toNat = 12 := rfl
  simp only [pyWs, Bool.or_eq_false_iff]
  refine ⟨⟨⟨⟨⟨?_, ?_⟩, ?_⟩, ?_⟩, ?_⟩, ?_⟩ <;>
    · apply charBeq_false_of_toNat_ne
      omega

theorem pyWs_pyUpperChar (c : Char) : pyWs (pyUpperChar c) = pyWs c := by
  unfold pyUpperChar
  split
  · next h =>
    rw [pyWs_false_of_32_lt c (by omega)]
    have h65 : 65 ≤ c.toNat - 32 := by omega
    have h90 : c.toNat - 32 ≤ 90 := by omega
    have hgen : ∀ m, 65 ≤ m → m ≤ 90 → pyWs (Char.ofNat m) = false := by
      intro m hm1 hm2
      interval_cases m <;> decide
    exact hgen _ h65 h90
  · rfl

/-- Case-insensitive search on the reply and on the stripped reply agree, for a
needle with non-whitespace first and last characters. -/
theorem pyContains_strip_upper (body needle : String) (n0 m0 : Char)
    (ntl mtl : List Char) (hd : needle.data = n0 :: ntl)
    (hr : needle.data.reverse = m0 :: mtl)
    (h0 : pyWs n0 = false) (h1 : pyWs m0 = false) :
    pyContains (pyUpper (pyStrip body)) needle = pyContains (pyUpper body) needle := by
  show containsB needle.data ((stripL body.data).map pyUpperChar) =
    containsB needle.data (body.data.map pyUpperChar)
  rw [← stripL_map pyUpperChar pyWs_pyUpperChar, hd]
  exact containsB_stripL n0 m0 ntl mtl _ (hd ▸ hr) h0 h1

/-- A string that contains a non-empty needle is non-empty. -/
theorem ne_nil_of_containsB (n0 : Char) (ntl h : List Char)
    (hc : containsB (n0 :: ntl) h = true) : h ≠ [] := by
  rintro rfl
  simp [containsB, List.isEmpty] at hc

theorem strData_append (s t : String) : (s ++ t).data = s.data ++ t.data := by
  cases s; cases t; rfl

theorem prefB_self_append (a t : List Char) : prefB a (a ++ t) = true := by
  induction a with
  | nil => rfl
  | cons x xs ih => simp [prefB, ih]

theorem suffB_append (d x : List Char) : suffB d (x ++ d) = true := by
  unfold suffB
  rw [List.reverse_append]
  exact prefB_self_append _ _

theorem pyEndsWith_append (x d : String) : pyEndsWith (x ++ d) d = true := by
  unfold pyEndsWith
  rw [strData_append]
  exact suffB_append _ _

theorem concatStrs_single (s : String) : concatStrs [s] = s := by
  show s ++ "" = s
  cases s
  show String.mk _ = String.mk _
  simp

/-! ### lastN lemmas -/

theorem lastN_length_le {α : Type} (n : Nat) (l : List α) : (lastN n l).length ≤ n := by
  unfold lastN
  rw [List.length_drop]
  omega

theorem drop_length_add {α : Type} (l m : List α) (k : Nat) :
    (l ++ m).drop (l.length + k) = m.drop k := by
  induction l with
  | nil => simp
  | cons a t ih => simp [Nat.succ_add, ih]

theorem lastN_append_of_le {α : Type} (n : Nat) (l m : List α) (h : n ≤ m.length) :
    lastN n (l ++ m) = lastN n m := by
  unfold lastN
  rw [List.length_append]
  have he : l.length + m.length - n = l.length + (m.length - n) := by omega
  rw [he, drop_length_add]

theorem drop_append_left {α : Type} (k : Nat) (l m : List α) (h : k ≤ l.length) :
    l.drop k ++ m = (l ++ m).drop k := by
  induction l generalizing k with
  | nil =>
    have : k = 0 := by simpa using h
    simp [this]
  | cons a t ih =>
    cases k with
    | zero => simp
    | succ k' =>
      simp only [List.drop_succ_cons, List.cons_append]
      exact ih k' (by simpa using h)

theorem lastN_lastN_append {α : Type} (n : Nat) (l m : List α) :
    lastN n (lastN n l ++ m) = lastN n (l ++ m) := by
  rcases Nat.le_total l.length n with h | h
  · have : l.length - n = 0 := by omega
    unfold lastN
    rw [this, List.drop_zero]
  · have h1 : l.length - n ≤ l.length := by omega
    show lastN n (l.drop (l.length - n) ++ m) = lastN n (l ++ m)
    rw [drop_append_left _ _ _ h1]
    unfold lastN
    rw [List.drop_drop, List.length_drop, List.length_append]
    congr 1
    omega

/-! ### Chunking lemmas -/

theorem chunkL_join_aux (n : Nat) :
    ∀ l : List Char, l.length ≤ n → (chunkL l).flatten = l := by
  induction n with
  | zero =>
    intro l h
    cases l with
    | nil => rw [chunkL]; rfl
    | cons c cs => simp at h
  | succ n ih =>
    intro l h
    cases l with
    | nil => rw [chunkL]; rfl
    | cons c cs =>
      rw [chunkL]
      simp only [List.flatten_cons]
      rw [ih ((c :: cs).drop 200) (by rw [List.length_drop]; simp at h ⊢; omega)]
      exact List.take_append_drop 200 (c :: cs)

theorem chunkL_join (l : List Char) : (chunkL l).flatten = l :=
  chunkL_join_aux l.length l (Nat.le_refl _)

theorem chunkL_dropLast_aux (n : Nat) :
    ∀ l : List Char, l.length ≤ n → ∀ x ∈ (chunkL l).dropLast, x.length = 200 := by
  induction n with
  | zero =>
    intro l h x hx
    cases l with
    | nil => rw [chunkL] at hx; simp at hx
    | cons c cs => simp at h
  | succ n ih =>
    intro l h x hx
    cases l with
    | nil => rw [chunkL] at hx; simp at hx
    | cons c cs =>
      rw [chunkL] at hx
      cases hrest : chunkL ((c :: cs).drop 200) with
      | nil => rw [hrest] at hx; simp at hx
      | cons r rs =>
        rw [hrest, List.dropLast_cons_of_ne_nil (by simp)] at hx
        rcases List.mem_cons.mp hx with rfl | hx'
        · have hd : (c :: cs).drop 200 ≠ [] := by
            intro he
            rw [he] at hrest
            rw [show chunkL [] = [] from by rw [chunkL]] at hrest
            exact List.cons_ne_nil r rs hrest.symm
          have hlen : 200 < (c :: cs).length := by
            by_contra hc
            push_neg at hc
            exact hd (List.drop_eq_nil_of_le hc)
          rw [List.length_take]
          omega
        · exact ih ((c :: cs).drop 200) (by rw [List.length_drop]; simp at h ⊢; omega) x
            (hrest ▸ hx')

theorem chunkL_dropLast (l : List Char) : ∀ x ∈ (chunkL l).dropLast, x.length = 200 :=
  chunkL_dropLast_aux l.length l (Nat.le_refl _)

theorem concatStrs_mk_join (ls : List (List Char)) :
    concatStrs (ls.map (fun l => (⟨l⟩ : String))) = ⟨ls.flatten⟩ := by
  induction ls with
  | nil => rfl
  | cons a t ih =>
    show (⟨a⟩ : String) ++ concatStrs (t.map (fun l => (⟨l⟩ : String))) = _
    rw [ih]
    show String.mk (a ++ t.flatten) = _
    simp

theorem chunk200_concat (s : String) : concatStrs (chunk200 s) = s := by
  unfold chunk200
  rw [concatStrs_mk_join, chunkL_join]

theorem chunk200_lengths (s : String) : ∀ x ∈ (chunk200 s).dropLast, x.length = 200 := by
  intro x hx
  unfold chunk200 at hx
  rw [← List.map_dropLast] at hx
  rcases List.mem_map.mp hx with ⟨l, hl, rfl⟩
  exact chunkL_dropLast s.data l hl

/-! ### Stream-loop lemmas -/

theorem iterStream_concat (lines : List StreamLine) :
    (iterStream lines).2 = concatStrs (iterStream lines).1 := by
  induction lines with
  | nil => rfl
  | cons line rest ih =>
    cases line with
    | blank => simpa [iterStream] using ih
    | parsed chunk done =>
      cases done with
      | true => simp [iterStream, concatStrs]
      | false =>
        by_cases hc : chunk = ""
        · simpa [iterStream, hc] using ih
        · simp [iterStream, hc, concatStrs, ih]
    | unparsed raw =>
      by_cases hc : pyStrip raw = ""
      · simpa [iterStream, hc] using ih
      · simp [iterStream, hc, concatStrs, ih]

theorem iterStream_stop (pre post : List StreamLine) (chunk : String)
    (h : hasDoneLine pre = false) :
    iterStream (pre ++ StreamLine.parsed chunk true :: post) = iterStream pre := by
  induction pre with
  | nil => simp [iterStream]
  | cons line rest ih =>
    cases line with
    | blank =>
      rw [hasDoneLine] at h
      simp [iterStream, ih h]
    | parsed c d =>
      cases d with
      | true => rw [hasDoneLine] at h; exact absurd h (by simp)
      | false =>
        rw [hasDoneLine] at h
        by_cases hc : c = ""
        · simp [iterStream, hc, ih h]
        · simp [iterStream, hc, ih h]
    | unparsed raw =>
      rw [hasDoneLine] at h
      by_cases hc : pyStrip raw = ""
      · simp [iterStream, hc, ih h]
      · simp [iterStream, hc, ih h]

/-! ### FAQ-loop lemmas -/

theorem faqLoop_noupdate (ratioFn : String → String → Nat) (q : String)
    (kvs : List (String × String)) (b : Option (String × Nat)) (bs : Nat)
    (h : maxScores ratioFn q kvs ≤ bs) :
    faqLoop ratioFn q kvs (b, bs) = (b, bs) := by
  induction kvs generalizing b bs with
  | nil => rfl
  | cons kv rest ih =>
    obtain ⟨k, a⟩ := kv
    rw [maxScores] at h
    rw [faqLoop, if_neg (by omega)]
    exact ih b bs (by omega)

theorem faqLoop_max (ratioFn : String → String → Nat) (q : String)
    (kvs : List (String × String)) (b : Option (String × Nat)) (bs : Nat)
    (h : bs < maxScores ratioFn q kvs) :
    ∃ a, firstWithScore ratioFn q (maxScores ratioFn q kvs) kvs = some a ∧
      faqLoop ratioFn q kvs (b, bs) =
        (some (a, maxScores ratioFn q kvs), maxScores ratioFn q kvs) := by
  induction kvs generalizing b bs with
  | nil => rw [maxScores] at h; omega
  | cons kv rest ih =>
    obtain ⟨k, a0⟩ := kv
    rw [maxScores] at h ⊢
    rcases Nat.le_total (maxScores ratioFn q rest) (ratioFn k q) with hle | hle
    · have hm : max (ratioFn k q) (maxScores ratioFn q rest) = ratioFn k q :=
        Nat.max_eq_left hle
      rw [hm] at h ⊢
      refine ⟨a0, by rw [firstWithScore, if_pos rfl], ?_⟩
      rw [faqLoop, if_pos (by omega)]
      exact faqLoop_noupdate ratioFn q rest _ _ hle
    · rcases Nat.eq_or_lt_of_le hle with heq | hlt
      · have hm : max (ratioFn k q) (maxScores ratioFn q rest) = ratioFn k q :=
          Nat.max_eq_left (Nat.le_of_eq heq.symm)
        rw [hm] at h ⊢
        refine ⟨a0, by rw [firstWithScore, if_pos rfl], ?_⟩
        rw [faqLoop, if_pos (by omega)]
        exact faqLoop_noupdate ratioFn q rest _ _ (Nat.le_of_eq heq.symm)
      · have hm : max (ratioFn k q) (maxScores ratioFn q rest) = maxScores ratioFn q rest :=
          Nat.max_eq_right (Nat.le_of_lt hlt)
        rw [hm] at h ⊢
        have hfw : firstWithScore ratioFn q (maxScores ratioFn q rest) ((k, a0) :: rest) =
            firstWithScore ratioFn q (maxScores ratioFn q rest) rest := by
          rw [firstWithScore, if_neg (by omega)]
        by_cases hb : bs < ratioFn k q
        · rcases ih (some (a0, ratioFn k q)) (ratioFn k q) hlt with ⟨a, ha1, ha2⟩
          exact ⟨a, hfw ▸ ha1, by rw [faqLoop, if_pos hb]; exact ha2⟩
        · rcases ih b bs h with ⟨a, ha1, ha2⟩
          exact ⟨a, hfw ▸ ha1, by rw [faqLoop, if_neg hb]; exact ha2⟩

/-! ### Session-fold lemma -/

theorem remember_consent (doc : SessionDoc) (q ts : String) :
    (remember_question doc q ts).user_consent = doc.user_consent := by
  unfold remember_question
  split <;> rfl

theorem remember_fold (qs : List (String × String)) (doc : SessionDoc)
    (h : doc.user_consent = true) (hne : qs ≠ []) :
    qs.foldl (fun d p => remember_question d p.1 p.2) doc =
      { doc with previous_questions :=
          (lastN 5 (doc.previous_questions ++ qs.map (fun p => ⟨p.1, p.2⟩))) } := by
  induction qs generalizing doc with
  | nil => exact absurd rfl hne
  | cons p rest ih =>
    obtain ⟨q, ts⟩ := p
    show rest.foldl (fun d p => remember_question d p.1 p.2) (remember_question doc q ts) = _
    cases rest with
    | nil =>
      show remember_question doc q ts = _
      unfold remember_question
      rw [if_pos h]
      simp
    | cons p2 rest2 =>
      rw [ih (remember_question doc q ts)
        (by rw [remember_consent, h]) (by simp)]
      unfold remember_question
      rw [if_pos h]
      simp only [List.map_cons]
      congr 1
      rw [lastN_lastN_append, List.append_assoc]
      rfl

/-! ### Cache-probe lemmas -/

theorem freshHit_of (cache : Cache) (key : String) (now : ℚ) (entry : CacheEntry)
    (h1 : cache_get cache key = some entry) (h2 : now - entry.t < 3600) :
    freshHit cache key now = some entry.v := by
  unfold freshHit
  rw [h1]
  exact if_pos h2

theorem freshHit_none_of (cache : Cache) (key : String) (now : ℚ)
    (h : ∀ entry, cache_get cache key = some entry → 3600 ≤ now - entry.t) :
    freshHit cache key now = none := by
  unfold freshHit
  cases hc : cache_get cache key with
  | none => rfl
  | some entry => exact if_neg (not_lt.mpr (h entry hc))

theorem ask_nostream_hit (digest : String → String) (session : SessionDoc)
    (cache : Cache) (now : ℚ) (backend : NoStreamBackend) (message : String)
    (ai : Option (List String)) (ui : Option String) (v : String)
    (h : freshHit cache (digest (build_prompt session message ai ui)) now = some v) :
    ask_ai_stream_nostream digest session cache now backend message ai ui =
      ⟨v, cache, false⟩ := by
  simp only [ask_ai_stream_nostream, h]

theorem ask_stream_hit (digest : String → String) (session : SessionDoc)
    (cache : Cache) (now : ℚ) (backend : StreamBackend) (message : String)
    (ai : Option (List String)) (ui : Option String) (v : String)
    (h : freshHit cache (digest (build_prompt session message ai ui)) now = some v) :
    ask_ai_stream digest session cache now backend message ai ui =
      ⟨chunk200 v, cache, false⟩ := by
  simp only [ask_ai_stream, h]

theorem ask_nostream_miss (digest : String → String) (session : SessionDoc)
    (cache : Cache) (now : ℚ) (backend : NoStreamBackend) (message : String)
    (ai : Option (List String)) (ui : Option String)
    (h : freshHit cache (digest (build_prompt session message ai ui)) now = none) :
    ask_ai_stream_nostream digest session cache now backend message ai ui =
      match backend with
      | .exn emsg => ⟨connectErrorText emsg, cache, true⟩
      | .httpError status =>
        ⟨ollamaErrorText status,
          cache_set cache (digest (build_prompt session message ai ui))
            (ollamaErrorText status) now, true⟩
      | .ok body =>
        ⟨body ++ "\n\n" ++ ETHICS_DISCLAIMER,
          cache_set cache (digest (build_prompt session message ai ui))
            (body ++ "\n\n" ++ ETHICS_DISCLAIMER) now, true⟩ := by
  simp only [ask_ai_stream_nostream, h]

theorem ask_stream_miss (digest : String → String) (session : SessionDoc)
    (cache : Cache) (now : ℚ) (backend : StreamBackend) (message : String)
    (ai : Option (List String)) (ui : Option String)
    (h : freshHit cache (digest (build_prompt session message ai ui)) now = none) :
    ask_ai_stream digest session cache now backend message ai ui =
      match backend with
      | .exn emsg => ⟨[connectErrorText emsg], cache, true⟩
      | .httpError status => ⟨[ollamaErrorText status], cache, true⟩
      | .ok lines =>
        ⟨(iterStream lines).1,
          if (iterStream lines).2 = "" then cache
          else cache_set cache (digest (build_prompt session message ai ui))
            (iterStream lines).2 now, true⟩ := by
  simp only [ask_ai_stream, h]

theorem cacheSet_preserves (cache : Cache) (k key v : String) (now : ℚ)
    (h : (cache_get cache k).isSome = true) :
    (cache_get (cache_set cache key v now) k).isSome = true := by
  unfold cache_get cache_set
  rw [dictGet_dictSet]
  split
  · rfl
  · exact h

/-! ## Claims -/

/-- C2: classify_urgency returns level 1 with confidence 1.0, the fixed
emergency action and a non-empty reason when the backend call succeeds and the
reply contains LEVEL 1 case-insensitively; level 2 with confidence 0.8 when it
instead contains LEVEL 2; and the level-3 default (confidence 0.5, empty
reason) in every other case — failure, non-success status, or a reply with
neither substring — never raising. -/
theorem claim_C2 :
    ∀ (message : String) (backend : ClassifyBackend),
      (∀ body, backend = ClassifyBackend.ok body →
        pyContains (pyUpper body) "LEVEL 1" = true →
        classify_urgency message backend =
            ⟨1, "🚨 EMERGENCY! Call 108 or go to nearest hospital IMMEDIATELY. Do not wait.",
              1, pyStrip body⟩ ∧
          (classify_urgency message backend).reason ≠ "") ∧
      (∀ body, backend = ClassifyBackend.ok body →
        pyContains (pyUpper body) "LEVEL 1" = false →
        pyContains (pyUpper body) "LEVEL 2" = true →
        classify_urgency message backend =
          ⟨2, "⚠️ URGENT: Contact a doctor or clinic within 24 hours.", 4/5, pyStrip body⟩) ∧
      ((∀ body, backend = ClassifyBackend.ok body →
          pyContains (pyUpper body) "LEVEL 1" = false ∧
            pyContains (pyUpper body) "LEVEL 2" = false) →
        classify_urgency message backend = urgencyDefault) := by
  intro message backend
  have b1 : ∀ body : String, pyContains (pyUpper (pyStrip body)) "LEVEL 1" =
      pyContains (pyUpper body) "LEVEL 1" := fun body =>
    pyContains_strip_upper body "LEVEL 1" 'L' '1' ['E', 'V', 'E', 'L', ' ', '1']
      [' ', 'L', 'E', 'V', 'E', 'L'] (by decide) (by decide) (by decide) (by decide)
  have b2 : ∀ body : String, pyContains (pyUpper (pyStrip body)) "LEVEL 2" =
      pyContains (pyUpper body) "LEVEL 2" := fun body =>
    pyContains_strip_upper body "LEVEL 2" 'L' '2' ['E', 'V', 'E', 'L', ' ', '2']
      [' ', 'L', 'E', 'V', 'E', 'L'] (by decide) (by decide) (by decide) (by decide)
  refine ⟨?_, ?_, ?_⟩
  · rintro body rfl h1
    have hc : pyContains (pyUpper (pyStrip body)) "LEVEL 1" = true := by
      rw [b1]; exact h1
    have he : classify_urgency message (ClassifyBackend.ok body) =
        ⟨1, "🚨 EMERGENCY! Call 108 or go to nearest hospital IMMEDIATELY. Do not wait.",
          1, pyStrip body⟩ := by
      simp [classify_urgency, hc]
    refine ⟨he, ?_⟩
    rw [he]
    show pyStrip body ≠ ""
    intro hempty
    rw [hempty] at hc
    exact absurd hc (by decide)
  · rintro body rfl h1 h2
    have hc1 : pyContains (pyUpper (pyStrip body)) "LEVEL 1" = false := by
      rw [b1]; exact h1
    have hc2 : pyContains (pyUpper (pyStrip body)) "LEVEL 2" = true := by
      rw [b2]; exact h2
    simp [classify_urgency, hc1, hc2]
  · intro h
    cases backend with
    | exn => rfl
    | httpError status => rfl
    | ok body =>
      obtain ⟨h1, h2⟩ := h body rfl
      have hc1 : pyContains (pyUpper (pyStrip body)) "LEVEL 1" = false := by
        rw [b1]; exact h1
      have hc2 : pyContains (pyUpper (pyStrip body)) "LEVEL 2" = false := by
        rw [b2]; exact h2
      simp [classify_urgency, hc1, hc2]

/-- Witness for C2: the three branches at concrete replies and outcomes. -/
theorem claim_C2_witness :
    classify_urgency "chest pain"
        (ClassifyBackend.ok "LEVEL 1: possible cardiac event. Confidence: HIGH") =
      ⟨1, "🚨 EMERGENCY! Call 108 or go to nearest hospital IMMEDIATELY. Do not wait.", 1,
        pyStrip "LEVEL 1: possible cardiac event. Confidence: HIGH"⟩ ∧
    classify_urgency "m" (ClassifyBackend.ok "maybe level 2 urgent") =
      ⟨2, "⚠️ URGENT: Contact a doctor or clinic within 24 hours.", 4/5,
        pyStrip "maybe level 2 urgent"⟩ ∧
    classify_urgency "m" ClassifyBackend.exn = urgencyDefault ∧
    classify_urgency "m" (ClassifyBackend.httpError 500) = urgencyDefault ∧
    classify_urgency "m" (ClassifyBackend.ok "no such markers here") = urgencyDefault := by
  refine ⟨?_, ?_, ?_, ?_, ?_⟩
  · exact ((claim_C2 "chest pain" _).1 _ rfl (by decide)).1
  · exact (claim_C2 "m" _).2.1 _ rfl (by decide) (by decide)
  · exact (claim_C2 "m" ClassifyBackend.exn).2.2 (fun body h => nomatch h)
  · exact (claim_C2 "m" (ClassifyBackend.httpError 500)).2.2 (fun body h => nomatch h)
  · refine (claim_C2 "m" _).2.2 ?_
    rintro body h
    cases h
    exact ⟨by decide, by decide⟩

/-- C3: remember_question leaves the session document unchanged whenever
consent is false; recall_user_context is empty whenever consent is false or the
history is empty, and otherwise is the fixed template naming the most recent
remembered question; hence no question is written into session memory while
consent is false. -/
theorem claim_C3 :
    (∀ (doc : SessionDoc) (q ts : String), doc.user_consent = false →
      remember_question doc q ts = doc) ∧
    (∀ doc : SessionDoc, doc.user_consent = false → recall_user_context doc = "") ∧
    (∀ doc : SessionDoc, doc.previous_questions = [] → recall_user_context doc = "") ∧
    (∀ (doc : SessionDoc) (e : QEntry), doc.user_consent = true →
      doc.previous_questions.getLast? = some e →
      recall_user_context doc = "Earlier you asked: \x27" ++ e.q ++ "\x27") := by
  refine ⟨?_, ?_, ?_, ?_⟩
  · intro doc q ts h
    unfold remember_question
    rw [h]
    rfl
  · intro doc h
    unfold recall_user_context
    rw [h]
    rfl
  · intro doc h
    unfold recall_user_context
    rw [h]
    split <;> rfl
  · intro doc e h1 h2
    unfold recall_user_context
    rw [h1, h2]
    rfl

/-- Witness for C3: consent gating and recall at concrete documents. -/
theorem claim_C3_witness :
    remember_question ⟨false, [], [], []⟩ "chest pain" "t0" = ⟨false, [], [], []⟩ ∧
    recall_user_context ⟨false, [⟨"chest pain", "t0"⟩], [], []⟩ = "" ∧
    recall_user_context ⟨true, [], [], []⟩ = "" ∧
    recall_user_context ⟨true, [⟨"other", "t1"⟩, ⟨"chest pain", "t2"⟩], [], []⟩ =
      "Earlier you asked: \x27" ++ "chest pain" ++ "\x27" :=
  ⟨claim_C3.1 _ "chest pain" "t0" rfl, claim_C3.2.1 _ rfl, claim_C3.2.2.1 _ rfl,
    claim_C3.2.2.2 _ ⟨"chest pain", "t2"⟩ rfl (by decide)⟩

/-- C9: each enrichment function is a total function of the store file state
and question, and a missing or unparseable store file behaves exactly as the
empty store, so no store-reading error can escape into the chat flow. -/
theorem claim_C9 :
    (∀ q : String,
      match_symptoms FileState.missing q = match_symptoms (FileState.valid []) q) ∧
    (∀ q : String,
      match_symptoms FileState.corrupt q = match_symptoms (FileState.valid []) q) ∧
    (∀ (r : String → String → Nat) (tS : FileState (List (String × String)))
        (cS : FileState (List Clinic)) (q : String),
      check_local_db r FileState.missing tS cS q =
        check_local_db r (FileState.valid []) tS cS q) ∧
    (∀ (r : String → String → Nat) (tS : FileState (List (String × String)))
        (cS : FileState (List Clinic)) (q : String),
      check_local_db r FileState.corrupt tS cS q =
        check_local_db r (FileState.valid []) tS cS q) ∧
    (∀ (r : String → String → Nat) (fS : FileState (List (String × String)))
        (cS : FileState (List Clinic)) (q : String),
      check_local_db r fS FileState.missing cS q =
        check_local_db r fS (FileState.valid []) cS q) ∧
    (∀ (r : String → String → Nat) (fS : FileState (List (String × String)))
        (cS : FileState (List Clinic)) (q : String),
      check_local_db r fS FileState.corrupt cS q =
        check_local_db r fS (FileState.valid []) cS q) ∧
    (∀ (r : String → String → Nat) (fS tS : FileState (List (String × String)))
        (q : String),
      check_local_db r fS tS FileState.missing q =
        check_local_db r fS tS (FileState.valid []) q) ∧
    (∀ (r : String → String → Nat) (fS tS : FileState (List (String × String)))
        (q : String),
      check_local_db r fS tS FileState.corrupt q =
        check_local_db r fS tS (FileState.valid []) q) ∧
    (∀ q : String,
      check_who_data FileState.missing q = check_who_data (FileState.valid []) q) ∧
    (∀ q : String,
      check_who_data FileState.corrupt q = check_who_data (FileState.valid []) q) :=
  ⟨fun _ => rfl, fun _ => rfl, fun _ _ _ _ => rfl, fun _ _ _ _ => rfl,
    fun _ _ _ _ => rfl, fun _ _ _ _ => rfl, fun _ _ _ _ => rfl, fun _ _ _ _ => rfl,
    fun _ => rfl, fun _ => rfl⟩

/-- C7: every consented remember keeps exactly the last 5 history entries and
every log write keeps exactly the last 100 audit entries, older entries
dropping first and all other document fields staying unchanged; remembering 7
questions in sequence leaves exactly the last 5. -/
theorem claim_C7 :
    (∀ (doc : SessionDoc) (q ts : String), doc.user_consent = true →
      (remember_question doc q ts).previous_questions =
          lastN 5 (doc.previous_questions ++ [⟨q, ts⟩]) ∧
        (remember_question doc q ts).previous_questions.length ≤ 5 ∧
        (remember_question doc q ts).user_consent = doc.user_consent ∧
        (remember_question doc q ts).audit_logs = doc.audit_logs ∧
        (remember_question doc q ts).extra = doc.extra) ∧
    (∀ (doc : SessionDoc) (m resp ts : String) (lvl : Nat),
      (log_interaction doc m resp ts lvl).audit_logs =
          lastN 100 (doc.audit_logs ++ [⟨ts, anonymize m, lvl⟩]) ∧
        (log_interaction doc m resp ts lvl).audit_logs.length ≤ 100 ∧
        (log_interaction doc m resp ts lvl).user_consent = doc.user_consent ∧
        (log_interaction doc m resp ts lvl).previous_questions = doc.previous_questions ∧
        (log_interaction doc m resp ts lvl).extra = doc.extra) ∧
    (∀ doc : SessionDoc, doc.user_consent = true →
      ∀ q1 t1 q2 t2 q3 t3 q4 t4 q5 t5 q6 t6 q7 t7 : String,
      (remember_question (remember_question (remember_question (remember_question
          (remember_question (remember_question (remember_question doc q1 t1) q2 t2)
            q3 t3) q4 t4) q5 t5) q6 t6) q7 t7).previous_questions =
        [⟨q3, t3⟩, ⟨q4, t4⟩, ⟨q5, t5⟩, ⟨q6, t6⟩, ⟨q7, t7⟩]) := by
  refine ⟨?_, ?_, ?_⟩
  · intro doc q ts h
    unfold remember_question
    rw [if_pos h]
    exact ⟨rfl, lastN_length_le 5 _, rfl, rfl, rfl⟩
  · intro doc m resp ts lvl
    unfold log_interaction
    exact ⟨rfl, lastN_length_le 100 _, rfl, rfl, rfl⟩
  · intro doc h q1 t1 q2 t2 q3 t3 q4 t4 q5 t5 q6 t6 q7 t7
    have hf := remember_fold
      [(q1, t1), (q2, t2), (q3, t3), (q4, t4), (q5, t5), (q6, t6), (q7, t7)] doc h
      (by simp)
    have hnest : (remember_question (remember_question (remember_question
        (remember_question (remember_question (remember_question
          (remember_question doc q1 t1) q2 t2) q3 t3) q4 t4) q5 t5) q6 t6) q7 t7) =
        [(q1, t1), (q2, t2), (q3, t3), (q4, t4), (q5, t5), (q6, t6), (q7, t7)].foldl
          (fun d p => remember_question d p.1 p.2) doc := rfl
    rw [hnest, hf]
    show lastN 5 (doc.previous_questions ++
      [⟨q1, t1⟩, ⟨q2, t2⟩, ⟨q3, t3⟩, ⟨q4, t4⟩, ⟨q5, t5⟩, ⟨q6, t6⟩, ⟨q7, t7⟩]) = _
    rw [lastN_append_of_le 5 _ _ (by simp)]
    rfl

/-- Witness for C7: the bounds and the seven-question sequence at concrete
documents. -/
theorem claim_C7_witness :
    (remember_question ⟨true, [⟨"a", "ta"⟩], [⟨"x", "y", 3⟩], [("z", "w")]⟩ "q" "tq").previous_questions
        = [⟨"a", "ta"⟩, ⟨"q", "tq"⟩] ∧
    (log_interaction ⟨true, [⟨"a", "ta"⟩], [⟨"x", "y", 3⟩], [("z", "w")]⟩ "msg" "resp" "tl" 2).audit_logs
        = [⟨"x", "y", 3⟩, ⟨"tl", anonymize "msg", 2⟩] ∧
    (remember_question (remember_question (remember_question (remember_question
        (remember_question (remember_question (remember_question
          ⟨true, [], [], []⟩ "q1" "t1") "q2" "t2") "q3" "t3") "q4" "t4") "q5" "t5")
            "q6" "t6") "q7" "t7").previous_questions =
      [⟨"q3", "t3"⟩, ⟨"q4", "t4"⟩, ⟨"q5", "t5"⟩, ⟨"q6", "t6"⟩, ⟨"q7", "t7"⟩] := by
  refine ⟨?_, ?_, ?_⟩
  · exact ((claim_C7.1 ⟨true, [⟨"a", "ta"⟩], [⟨"x", "y", 3⟩], [("z", "w")]⟩ "q" "tq" rfl).1).trans
      (by decide)
  · exact ((claim_C7.2.1 ⟨true, [⟨"a", "ta"⟩], [⟨"x", "y", 3⟩], [("z", "w")]⟩ "msg" "resp" "tl" 2).1).trans
      (by simp [lastN])
  · exact claim_C7.2.2 ⟨true, [], [], []⟩ rfl "q1" "t1" "q2" "t2" "q3" "t3" "q4" "t4"
      "q5" "t5" "q6" "t6" "q7" "t7"

/-- C4: the generation cache is keyed by the digest of the fully built prompt;
a stored response is reused — without contacting the backend and leaving the
cache untouched — exactly when the entry exists and is strictly younger than
3600 seconds; older entries are ignored on read (the backend is contacted) and
no call ever removes a cache key. -/
theorem claim_C4 :
    ∀ (digest : String → String) (session : SessionDoc) (cache : Cache) (now : ℚ)
      (message : String) (ai : Option (List String)) (ui : Option String),
      (∀ (backend : NoStreamBackend) (entry : CacheEntry),
        cache_get cache (digest (build_prompt session message ai ui)) = some entry →
        now - entry.t < 3600 →
        ask_ai_stream_nostream digest session cache now backend message ai ui =
          ⟨entry.v, cache, false⟩) ∧
      (∀ (backend : StreamBackend) (entry : CacheEntry),
        cache_get cache (digest (build_prompt session message ai ui)) = some entry →
        now - entry.t < 3600 →
        ask_ai_stream digest session cache now backend message ai ui =
          ⟨chunk200 entry.v, cache, false⟩) ∧
      (∀ backend : NoStreamBackend,
        (∀ entry, cache_get cache (digest (build_prompt session message ai ui)) = some entry →
          3600 ≤ now - entry.t) →
        (ask_ai_stream_nostream digest session cache now backend message ai ui).contacted
          = true) ∧
      (∀ backend : StreamBackend,
        (∀ entry, cache_get cache (digest (build_prompt session message ai ui)) = some entry →
          3600 ≤ now - entry.t) →
        (ask_ai_stream digest session cache now backend message ai ui).contacted = true) ∧
      (∀ (backend : NoStreamBackend) (k : String),
        (cache_get cache k).isSome = true →
        (cache_get (ask_ai_stream_nostream digest session cache now backend message ai ui).cache
          k).isSome = true) ∧
      (∀ (backend : StreamBackend) (k : String),
        (cache_get cache k).isSome = true →
        (cache_get (ask_ai_stream digest session cache now backend message ai ui).cache
          k).isSome = true) := by
  intro digest session cache now message ai ui
  refine ⟨?_, ?_, ?_, ?_, ?_, ?_⟩
  · intro backend entry h1 h2
    exact ask_nostream_hit digest session cache now backend message ai ui entry.v
      (freshHit_of cache _ now entry h1 h2)
  · intro backend entry h1 h2
    exact ask_stream_hit digest session cache now backend message ai ui entry.v
      (freshHit_of cache _ now entry h1 h2)
  · intro backend h
    rw [ask_nostream_miss digest session cache now backend message ai ui
      (freshHit_none_of cache _ now h)]
    cases backend <;> rfl
  · intro backend h
    rw [ask_stream_miss digest session cache now backend message ai ui
      (freshHit_none_of cache _ now h)]
    cases backend <;> rfl
  · intro backend k hk
    cases hfh : freshHit cache (digest (build_prompt session message ai ui)) now with
    | some v =>
      rw [ask_nostream_hit digest session cache now backend message ai ui v hfh]
      exact hk
    | none =>
      rw [ask_nostream_miss digest session cache now backend message ai ui hfh]
      cases backend with
      | exn emsg => exact hk
      | httpError status => exact cacheSet_preserves cache k _ _ now hk
      | ok body => exact cacheSet_preserves cache k _ _ now hk
  · intro backend k hk
    cases hfh : freshHit cache (digest (build_prompt session message ai ui)) now with
    | some v =>
      rw [ask_stream_hit digest session cache now backend message ai ui v hfh]
      exact hk
    | none =>
      rw [ask_stream_miss digest session cache now backend message ai ui hfh]
      cases backend with
      | exn emsg => exact hk
      | httpError status => exact hk
      | ok lines =>
        show (cache_get (if (iterStream lines).2 = "" then cache else _) k).isSome = true
        split
        · exact hk
        · exact cacheSet_preserves cache k _ _ now hk

/-- Witness for C4: fresh hit, stale entry, and key preservation at concrete
states. -/
theorem claim_C4_witness :
    ask_ai_stream_nostream (fun _ => "k") ⟨false, [], [], []⟩ [("k", ⟨"hi", 0⟩)] 100
        (NoStreamBackend.exn "x") "m" none none = ⟨"hi", [("k", ⟨"hi", 0⟩)], false⟩ ∧
    ask_ai_stream (fun _ => "k") ⟨false, [], [], []⟩ [("k", ⟨"hi", 0⟩)] 100
        (StreamBackend.exn "x") "m" none none =
      ⟨chunk200 "hi", [("k", ⟨"hi", 0⟩)], false⟩ ∧
    (ask_ai_stream_nostream (fun _ => "k") ⟨false, [], [], []⟩ [("k", ⟨"hi", 0⟩)] 4000
        (NoStreamBackend.exn "x") "m" none none).contacted = true ∧
    (ask_ai_stream (fun _ => "k") ⟨false, [], [], []⟩ [("k", ⟨"hi", 0⟩)] 4000
        (StreamBackend.exn "x") "m" none none).contacted = true ∧
    (cache_get (ask_ai_stream_nostream (fun _ => "k") ⟨false, [], [], []⟩
        [("k", ⟨"hi", 0⟩)] 4000 (NoStreamBackend.httpError 500) "m" none none).cache
      "k").isSome = true ∧
    (cache_get (ask_ai_stream (fun _ => "k") ⟨false, [], [], []⟩
        [("k", ⟨"hi", 0⟩)] 4000 (StreamBackend.ok []) "m" none none).cache
      "k").isSome = true := by
  have hstale : ∀ entry : CacheEntry,
      cache_get [("k", (⟨"hi", 0⟩ : CacheEntry))]
        ((fun _ => "k") (build_prompt ⟨false, [], [], []⟩ "m" none none)) = some entry →
      3600 ≤ (4000 : ℚ) - entry.t := by
    intro entry h
    have he : entry = ⟨"hi", 0⟩ := by
      have h0 : cache_get [("k", (⟨"hi", 0⟩ : CacheEntry))]
          ((fun _ => "k") (build_prompt ⟨false, [], [], []⟩ "m" none none)) =
          some ⟨"hi", 0⟩ := by decide
      exact (Option.some.inj (h0.symm.trans h)).symm
    rw [he]
    norm_num
  refine ⟨?_, ?_, ?_, ?_, ?_, ?_⟩
  · exact (claim_C4 (fun _ => "k") ⟨false, [], [], []⟩ [("k", ⟨"hi", 0⟩)] 100 "m"
      none none).1 _ ⟨"hi", 0⟩ (by decide) (by norm_num)
  · exact (claim_C4 (fun _ => "k") ⟨false, [], [], []⟩ [("k", ⟨"hi", 0⟩)] 100 "m"
      none none).2.1 _ ⟨"hi", 0⟩ (by decide) (by norm_num)
  · exact (claim_C4 (fun _ => "k") ⟨false, [], [], []⟩ [("k", ⟨"hi", 0⟩)] 4000 "m"
      none none).2.2.1 _ hstale
  · exact (claim_C4 (fun _ => "k") ⟨false, [], [], []⟩ [("k", ⟨"hi", 0⟩)] 4000 "m"
      none none).2.2.2.1 _ hstale
  · exact (claim_C4 (fun _ => "k") ⟨false, [], [], []⟩ [("k", ⟨"hi", 0⟩)] 4000 "m"
      none none).2.2.2.2.1 _ "k" (by decide)
  · exact (claim_C4 (fun _ => "k") ⟨false, [], [], []⟩ [("k", ⟨"hi", 0⟩)] 4000 "m"
      none none).2.2.2.2.2 _ "k" (by decide)

/-- C5: in non-streaming mode, a non-success HTTP status produces the error
text (status code followed by the disclaimer), writes that same text into the
cache under the prompt's key, and an identical prompt within the following hour
replays it without contacting the backend. -/
theorem claim_C5 :
    ∀ (digest : String → String) (session : SessionDoc) (cache : Cache) (now : ℚ)
      (status : Nat) (message : String) (ai : Option (List String)) (ui : Option String),
      freshHit cache (digest (build_prompt session message ai ui)) now = none →
      (ask_ai_stream_nostream digest session cache now (NoStreamBackend.httpError status)
          message ai ui).text = ollamaErrorText status ∧
      pyEndsWith (ask_ai_stream_nostream digest session cache now
          (NoStreamBackend.httpError status) message ai ui).text ETHICS_DISCLAIMER = true ∧
      cache_get (ask_ai_stream_nostream digest session cache now
            (NoStreamBackend.httpError status) message ai ui).cache
          (digest (build_prompt session message ai ui)) =
        some ⟨ollamaErrorText status, now⟩ ∧
      (∀ (later : ℚ) (backend' : NoStreamBackend), later - now < 3600 →
        ask_ai_stream_nostream digest session
            (ask_ai_stream_nostream digest session cache now
              (NoStreamBackend.httpError status) message ai ui).cache
            later backend' message ai ui =
          ⟨ollamaErrorText status,
            (ask_ai_stream_nostream digest session cache now
              (NoStreamBackend.httpError status) message ai ui).cache, false⟩) := by
  intro digest session cache now status message ai ui h
  have hrun := ask_nostream_miss digest session cache now (NoStreamBackend.httpError status)
    message ai ui h
  have hget : cache_get (ask_ai_stream_nostream digest session cache now
        (NoStreamBackend.httpError status) message ai ui).cache
      (digest (build_prompt session message ai ui)) =
      some ⟨ollamaErrorText status, now⟩ := by
    rw [hrun]
    show dictGet _ (dictSet _ _ _) = _
    rw [dictGet_dictSet]
    simp
  refine ⟨by rw [hrun], ?_, hget, ?_⟩
  · rw [hrun]
    show pyEndsWith (_ ++ ETHICS_DISCLAIMER) ETHICS_DISCLAIMER = true
    exact pyEndsWith_append _ _
  · intro later backend' hlt
    exact ask_nostream_hit digest session _ later backend' message ai ui _
      (freshHit_of _ _ later ⟨ollamaErrorText status, now⟩ hget hlt)

/-- Witness for C5: a 502 error at an empty cache, then a replay 100 seconds
later. -/
theorem claim_C5_witness :
    (ask_ai_stream_nostream (fun _ => "k") ⟨false, [], [], []⟩ [] 0
        (NoStreamBackend.httpError 502) "m" none none).text = ollamaErrorText 502 ∧
    cache_get (ask_ai_stream_nostream (fun _ => "k") ⟨false, [], [], []⟩ [] 0
          (NoStreamBackend.httpError 502) "m" none none).cache "k" =
      some ⟨ollamaErrorText 502, 0⟩ ∧
    ask_ai_stream_nostream (fun _ => "k") ⟨false, [], [], []⟩
        (ask_ai_stream_nostream (fun _ => "k") ⟨false, [], [], []⟩ [] 0
          (NoStreamBackend.httpError 502) "m" none none).cache 100
        (NoStreamBackend.exn "boom") "m" none none =
      ⟨ollamaErrorText 502,
        (ask_ai_stream_nostream (fun _ => "k") ⟨false, [], [], []⟩ [] 0
          (NoStreamBackend.httpError 502) "m" none none).cache, false⟩ := by
  have h := claim_C5 (fun _ => "k") ⟨false, [], [], []⟩ [] 0 502 "m" none none (by decide)
  exact ⟨h.1, h.2.2.1, h.2.2.2 100 (NoStreamBackend.exn "boom") (by norm_num)⟩

/-- C8: a fresh cache hit in streaming mode emits exactly the 200-character
slices of the cached text in order — every chunk except possibly the last of
length exactly 200, concatenating back to the cached text — without contacting
the backend or modifying the cache. -/
theorem claim_C8 :
    ∀ (digest : String → String) (session : SessionDoc) (cache : Cache) (now : ℚ)
      (backend : StreamBackend) (message : String) (ai : Option (List String))
      (ui : Option String) (entry : CacheEntry),
      cache_get cache (digest (build_prompt session message ai ui)) = some entry →
      now - entry.t < 3600 →
      (ask_ai_stream digest session cache now backend message ai ui).chunks =
          chunk200 entry.v ∧
      concatStrs (ask_ai_stream digest session cache now backend message ai ui).chunks =
          entry.v ∧
      (∀ x ∈ (ask_ai_stream digest session cache now backend message ai ui).chunks.dropLast,
        x.length = 200) ∧
      (ask_ai_stream digest session cache now backend message ai ui).contacted = false ∧
      (ask_ai_stream digest session cache now backend message ai ui).cache = cache := by
  intro digest session cache now backend message ai ui entry h1 h2
  have hrun := ask_stream_hit digest session cache now backend message ai ui entry.v
    (freshHit_of cache _ now entry h1 h2)
  rw [hrun]
  exact ⟨rfl, chunk200_concat entry.v, chunk200_lengths entry.v, rfl, rfl⟩

/-- Witness for C8: replay of a short cached text from a fresh entry. -/
theorem claim_C8_witness :
    (ask_ai_stream (fun _ => "k") ⟨false, [], [], []⟩ [("k", ⟨"abc", 0⟩)] 1
        (StreamBackend.exn "e") "m" none none).chunks = chunk200 "abc" ∧
    concatStrs (ask_ai_stream (fun _ => "k") ⟨false, [], [], []⟩ [("k", ⟨"abc", 0⟩)] 1
        (StreamBackend.exn "e") "m" none none).chunks = "abc" ∧
    (ask_ai_stream (fun _ => "k") ⟨false, [], [], []⟩ [("k", ⟨"abc", 0⟩)] 1
        (StreamBackend.exn "e") "m" none none).contacted = false := by
  have h := claim_C8 (fun _ => "k") ⟨false, [], [], []⟩ [("k", ⟨"abc", 0⟩)] 1
    (StreamBackend.exn "e") "m" none none ⟨"abc", 0⟩ (by decide) (by norm_num)
  exact ⟨h.1, h.2.1, h.2.2.2.1⟩

/-- C10: a parsed stream line whose done flag is set stops the loop before its
own chunk is forwarded — only increments strictly before the first done line
are forwarded — the accumulated text equals the concatenation of the forwarded
chunks, and that concatenation is exactly what a cache write at stream end
stores. -/
theorem claim_C10 :
    (∀ lines : List StreamLine,
      (iterStream lines).2 = concatStrs (iterStream lines).1) ∧
    (∀ (pre post : List StreamLine) (chunk : String), hasDoneLine pre = false →
      iterStream (pre ++ StreamLine.parsed chunk true :: post) = iterStream pre) ∧
    (∀ (digest : String → String) (session : SessionDoc) (cache : Cache) (now : ℚ)
        (lines : List StreamLine) (message : String) (ai : Option (List String))
        (ui : Option String),
      freshHit cache (digest (build_prompt session message ai ui)) now = none →
      (ask_ai_stream digest session cache now (StreamBackend.ok lines) message ai ui).chunks
          = (iterStream lines).1 ∧
      ((iterStream lines).2 ≠ "" →
        cache_get (ask_ai_stream digest session cache now (StreamBackend.ok lines)
              message ai ui).cache (digest (build_prompt session message ai ui)) =
          some ⟨concatStrs (iterStream lines).1, now⟩)) := by
  refine ⟨iterStream_concat, iterStream_stop, ?_⟩
  intro digest session cache now lines message ai ui h
  have hrun := ask_stream_miss digest session cache now (StreamBackend.ok lines)
    message ai ui h
  rw [hrun]
  refine ⟨rfl, ?_⟩
  intro hne
  show cache_get (if (iterStream lines).2 = "" then cache else _) _ = _
  rw [if_neg hne]
  show dictGet _ (dictSet _ _ _) = _
  rw [dictGet_dictSet]
  simp [iterStream_concat lines]

/-- Witness for C10: a stream whose done line carries a dropped increment,
followed by the cache write of the forwarded concatenation. -/
theorem claim_C10_witness :
    iterStream ([StreamLine.parsed "a" false] ++
        StreamLine.parsed "DROPPED" true :: [StreamLine.parsed "z" false]) =
      iterStream [StreamLine.parsed "a" false] ∧
    (iterStream [StreamLine.parsed "a" false, StreamLine.parsed "b" false]).2 =
      concatStrs (iterStream [StreamLine.parsed "a" false, StreamLine.parsed "b" false]).1 ∧
    (ask_ai_stream (fun _ => "k") ⟨false, [], [], []⟩ [] 0
        (StreamBackend.ok [StreamLine.parsed "a" false, StreamLine.blank,
          StreamLine.parsed "b" false, StreamLine.parsed "DROPPED" true]) "m" none
        none).chunks = ["a", "b"] ∧
    cache_get (ask_ai_stream (fun _ => "k") ⟨false, [], [], []⟩ [] 0
        (StreamBackend.ok [StreamLine.parsed "a" false, StreamLine.blank,
          StreamLine.parsed "b" false, StreamLine.parsed "DROPPED" true]) "m" none
        none).cache "k" =
      some ⟨concatStrs ["a", "b"], 0⟩ := by
  have h3 := claim_C10.2.2 (fun _ => "k") ⟨false, [], [], []⟩ [] 0
    [StreamLine.parsed "a" false, StreamLine.blank, StreamLine.parsed "b" false,
      StreamLine.parsed "DROPPED" true] "m" none none (by decide)
  refine ⟨claim_C10.2.1 [StreamLine.parsed "a" false] [StreamLine.parsed "z" false]
      "DROPPED" (by decide),
    claim_C10.1 [StreamLine.parsed "a" false, StreamLine.parsed "b" false],
    h3.1.trans (by decide), (h3.2 (by decide)).trans (by decide)⟩

/-- C6: with s the maximum fuzzy ratio between any FAQ key and the lowercased
question, check_local_db returns the answer of the first key attaining s with
confidence s/100 exactly when s exceeds 60, and otherwise the FAQ path yields
nothing and the call falls through to the tips/clinics paths. -/
theorem claim_C6 :
    ∀ (ratioFn : String → String → Nat)
      (faqStore tipsStore : FileState (List (String × String)))
      (clinicsStore : FileState (List Clinic)) (question : String),
      (60 < maxScores ratioFn (pyLower question) (load_json [] faqStore) →
        ∃ a, firstWithScore ratioFn (pyLower question)
            (maxScores ratioFn (pyLower question) (load_json [] faqStore))
            (load_json [] faqStore) = some a ∧
          check_local_db ratioFn faqStore tipsStore clinicsStore question =
            some ⟨a, (maxScores ratioFn (pyLower question) (load_json [] faqStore) : ℚ)
              / 100⟩) ∧
      (maxScores ratioFn (pyLower question) (load_json [] faqStore) ≤ 60 →
        check_local_db ratioFn faqStore tipsStore clinicsStore question =
          tipsClinics (load_json [] tipsStore) (load_json [] clinicsStore)
            (pyLower question)) := by
  intro ratioFn faqStore tipsStore clinicsStore question
  constructor
  · intro h
    obtain ⟨a, ha1, ha2⟩ := faqLoop_max ratioFn (pyLower question) (load_json [] faqStore)
      none 0 (by omega)
    refine ⟨a, ha1, ?_⟩
    simp only [check_local_db, ha2]
    rw [if_pos h]
  · intro h
    rcases Nat.eq_zero_or_pos (maxScores ratioFn (pyLower question) (load_json [] faqStore))
      with hz | hp
    · have hl := faqLoop_noupdate ratioFn (pyLower question) (load_json [] faqStore)
        none 0 (by omega)
      simp only [check_local_db, hl]
    · obtain ⟨a, ha1, ha2⟩ := faqLoop_max ratioFn (pyLower question)
        (load_json [] faqStore) none 0 hp
      simp only [check_local_db, ha2]
      rw [if_neg (by omega)]

/-- Witness for C6: a best score of exactly 61 returns that FAQ answer with
confidence 0.61; all scores at 60 fall through (here to no answer at all). -/
theorem claim_C6_witness :
    check_local_db (fun k _ => if k = "good" then 61 else 60)
        (FileState.valid [("meh", "a0"), ("good", "a1")]) (FileState.valid [])
        (FileState.valid []) "q" = some ⟨"a1", 61 / 100⟩ ∧
    check_local_db (fun _ _ => 60) (FileState.valid [("k", "a")]) (FileState.valid [])
        (FileState.valid []) "q" = none := by
  constructor
  · obtain ⟨a, ha1, ha2⟩ := (claim_C6 (fun k _ => if k = "good" then 61 else 60)
      (FileState.valid [("meh", "a0"), ("good", "a1")]) (FileState.valid [])
      (FileState.valid []) "q").1 (by decide)
    have hv : firstWithScore (fun k _ => if k = "good" then 61 else 60) (pyLower "q")
        (maxScores (fun k _ => if k = "good" then 61 else 60) (pyLower "q")
          (load_json [] (FileState.valid [("meh", "a0"), ("good", "a1")])))
        (load_json [] (FileState.valid [("meh", "a0"), ("good", "a1")])) =
        some "a1" := by decide
    have ha : a = "a1" := (Option.some.inj (hv.symm.trans ha1)).symm
    rw [ha2, ha]
    have hm : maxScores (fun k _ => if k = "good" then 61 else 60) (pyLower "q")
        (load_json [] (FileState.valid [("meh", "a0"), ("good", "a1")])) = 61 := by decide
    rw [hm]
    norm_num
  · exact ((claim_C6 (fun _ _ => 60) (FileState.valid [("k", "a")]) (FileState.valid [])
      (FileState.valid []) "q").2 (by decide)).trans (by decide)

/-- C1 amended: the disclaimer-terminated delivery holds for every outcome
except a cache hit and a successful streaming generation: the non-streaming
reply, a non-success HTTP status in either mode, and a transport failure in
either mode all end with the disclaimer, while a cache hit reproduces the
stored text verbatim in both modes (so it ends with the disclaimer only when
that text does), and a successful stream forwards the backend increments
verbatim. -/
theorem claim_C1_amended :
    ∀ (digest : String → String) (session : SessionDoc) (cache : Cache) (now : ℚ)
      (message : String) (ai : Option (List String)) (ui : Option String),
      (freshHit cache (digest (build_prompt session message ai ui)) now = none →
        (∀ emsg, pyEndsWith (ask_ai_stream_nostream digest session cache now
            (NoStreamBackend.exn emsg) message ai ui).text ETHICS_DISCLAIMER = true) ∧
        (∀ status, pyEndsWith (ask_ai_stream_nostream digest session cache now
            (NoStreamBackend.httpError status) message ai ui).text ETHICS_DISCLAIMER
          = true) ∧
        (∀ body, pyEndsWith (ask_ai_stream_nostream digest session cache now
            (NoStreamBackend.ok body) message ai ui).text ETHICS_DISCLAIMER = true) ∧
        (∀ emsg, pyEndsWith (concatStrs (ask_ai_stream digest session cache now
            (StreamBackend.exn emsg) message ai ui).chunks) ETHICS_DISCLAIMER = true) ∧
        (∀ status, pyEndsWith (concatStrs (ask_ai_stream digest session cache now
            (StreamBackend.httpError status) message ai ui).chunks) ETHICS_DISCLAIMER
          = true)) ∧
      (∀ v, freshHit cache (digest (build_prompt session message ai ui)) now = some v →
        (∀ backend, (ask_ai_stream_nostream digest session cache now backend
          message ai ui).text = v) ∧
        (∀ backend2, concatStrs (ask_ai_stream digest session cache now backend2
          message ai ui).chunks = v)) := by
  intro digest session cache now message ai ui
  constructor
  · intro h
    refine ⟨?_, ?_, ?_, ?_, ?_⟩
    · intro emsg
      rw [ask_nostream_miss digest session cache now _ message ai ui h]
      exact pyEndsWith_append _ _
    · intro status
      rw [ask_nostream_miss digest session cache now _ message ai ui h]
      exact pyEndsWith_append _ _
    · intro body
      rw [ask_nostream_miss digest session cache now _ message ai ui h]
      exact pyEndsWith_append _ _
    · intro emsg
      rw [ask_stream_miss digest session cache now _ message ai ui h]
      show pyEndsWith (concatStrs [connectErrorText emsg]) ETHICS_DISCLAIMER = true
      rw [concatStrs_single]
      exact pyEndsWith_append _ _
    · intro status
      rw [ask_stream_miss digest session cache now _ message ai ui h]
      show pyEndsWith (concatStrs [ollamaErrorText status]) ETHICS_DISCLAIMER = true
      rw [concatStrs_single]
      exact pyEndsWith_append _ _
  · intro v hv
    constructor
    · intro backend
      rw [ask_nostream_hit digest session cache now backend message ai ui v hv]
    · intro backend2
      rw [ask_stream_hit digest session cache now backend2 message ai ui v hv]
      exact chunk200_concat v

/-- Counterexample to C1 as stated: a successful streaming generation whose
backend increments are "hello" followed by a done line delivers exactly
"hello", which does not end with the disclaimer, although the backend was
contacted and the stream completed normally. -/
theorem claim_C1_counterexample :
    pyEndsWith (concatStrs (ask_ai_stream (fun _ => "k") ⟨false, [], [], []⟩ [] 0
        (StreamBackend.ok [StreamLine.parsed "hello" false, StreamLine.parsed "" true])
        "hi" none none).chunks) ETHICS_DISCLAIMER = false ∧
    (ask_ai_stream (fun _ => "k") ⟨false, [], [], []⟩ [] 0
        (StreamBackend.ok [StreamLine.parsed "hello" false, StreamLine.parsed "" true])
        "hi" none none).contacted = true := by
  constructor
  · decide
  · decide

/-- Witness for the amended C1: the disclaimer-ending outcomes and the verbatim
cache hit at concrete states. -/
theorem claim_C1_witness :
    pyEndsWith (ask_ai_stream_nostream (fun _ => "k") ⟨false, [], [], []⟩ [] 0
        (NoStreamBackend.exn "boom") "m" none none).text ETHICS_DISCLAIMER = true ∧
    pyEndsWith (ask_ai_stream_nostream (fun _ => "k") ⟨false, [], [], []⟩ [] 0
        (NoStreamBackend.httpError 500) "m" none none).text ETHICS_DISCLAIMER = true ∧
    pyEndsWith (ask_ai_stream_nostream (fun _ => "k") ⟨false, [], [], []⟩ [] 0
        (NoStreamBackend.ok "fine") "m" none none).text ETHICS_DISCLAIMER = true ∧
    pyEndsWith (concatStrs (ask_ai_stream (fun _ => "k") ⟨false, [], [], []⟩ [] 0
        (StreamBackend.exn "boom") "m" none none).chunks) ETHICS_DISCLAIMER = true ∧
    pyEndsWith (concatStrs (ask_ai_stream (fun _ => "k") ⟨false, [], [], []⟩ [] 0
        (StreamBackend.httpError 500) "m" none none).chunks) ETHICS_DISCLAIMER = true ∧
    (ask_ai_stream_nostream (fun _ => "k") ⟨false, [], [], []⟩ [("k", ⟨"xyz", 0⟩)] 5
        (NoStreamBackend.exn "e") "m" none none).text = "xyz" ∧
    concatStrs (ask_ai_stream (fun _ => "k") ⟨false, [], [], []⟩ [("k", ⟨"xyz", 0⟩)] 5
        (StreamBackend.exn "e") "m" none none).chunks = "xyz" := by
  have hmiss := (claim_C1_amended (fun _ => "k") ⟨false, [], [], []⟩ [] 0 "m" none
    none).1 (by decide)
  have hhit := (claim_C1_amended (fun _ => "k") ⟨false, [], [], []⟩ [("k", ⟨"xyz", 0⟩)] 5
    "m" none none).2 "xyz" (freshHit_of _ _ _ ⟨"xyz", 0⟩ (by decide) (by norm_num))
  exact ⟨hmiss.1 "boom", hmiss.2.1 500, hmiss.2.2.1 "fine", hmiss.2.2.2.1 "boom",
    hmiss.2.2.2.2 500, hhit.1 (NoStreamBackend.exn "e"), hhit.2 (StreamBackend.exn "e")⟩

end DoctorAI
